import Mathlib

/-!
Verification of go-io-bound-api: task lifecycle and task registry.

A shallow embedding of `internal/task/task.go`, `internal/repo/repo.go` and the
response assembly of `internal/handler/handler.go`, followed by the properties
proved about them.

Conventions of the embedding.

* `time.Time` is the number of nanoseconds elapsed since the zero Time
  (January 1, year 1, 00:00:00 UTC); `IsZero` is equality with `0`.  The wall
  clock and the monotonic reading of a Go `Time` are identified.
* `time.Duration` is an `int64` count of nanoseconds: an `Int` together with
  explicit wrap-around (`wrap64`) or saturation where Go's library has it.
* A `*task.Task` is an address (`Ptr`), `0` being `nil`; a `Heap` gives the
  struct stored at each address.
* Mutexes are modelled by atomicity: the body of every critical section is one
  step.  `time.Now()` and `rand.Int63n` are inputs of the step that calls them.
* `slog` calls leave task and registry untouched and are dropped, except that
  the reads they perform under a lock are kept as steps.
-/

namespace GoTime

/-- Instants: nanoseconds since the zero Time. -/
abbrev Time := Int

/-- Go `time.Duration`: a signed 64-bit nanosecond count. -/
abbrev Duration := Int

def Nanosecond : Duration := 1
def Microsecond : Duration := 1000 * Nanosecond
def Millisecond : Duration := 1000 * Microsecond
def Second : Duration := 1000 * Millisecond
def Minute : Duration := 60 * Second

/-- Smallest `Duration`, `-1 << 63`. -/
def minDuration : Duration := -9223372036854775808

/-- Largest `Duration`, `1<<63 - 1`. -/
def maxDuration : Duration := 9223372036854775807

/-- Two's-complement wrap-around of `int64` arithmetic. -/
def wrap64 (x : Int) : Int :=
  (x + 9223372036854775808) % 18446744073709551616 - 9223372036854775808

/-- Conversion `uint64(x)` of an `int64`. -/
def toUint64 (x : Int) : Int := x % 18446744073709551616

/-- Go `Time.IsZero`. -/
def Time.IsZero (t : Time) : Bool := t == 0

/-- Go `Time.Sub`: the duration `t - u`, saturated to the range of `Duration`
("if the result exceeds the maximum (or minimum) value that can be stored in a
Duration, the maximum (or minimum) duration will be returned"). -/
def Time.Sub (t u : Time) : Duration :=
  let d := t - u
  if d < minDuration then minDuration
  else if maxDuration < d then maxDuration
  else d

/-- Go `time.Since(t)`, which is `time.Now().Sub(t)`; `now` is the clock reading. -/
def Since (now t : Time) : Duration := Time.Sub now t

/-- Go `lessThanHalf(x, y)`: `uint64(x)+uint64(x) < uint64(y)`. -/
def lessThanHalf (x y : Duration) : Bool :=
  decide ((toUint64 x + toUint64 x) % 18446744073709551616 < toUint64 y)

/-- Go `Duration.Round(m)`: rounding to the nearest multiple of `m`, halfway
values away from zero; on overflow the maximum (or minimum) duration. -/
def Duration.Round (d m : Duration) : Duration :=
  if m ≤ 0 then d
  else
    let r := Int.tmod d m
    if d < 0 then
      let r := wrap64 (-r)
      if lessThanHalf r m then wrap64 (d + r)
      else
        let d1 := wrap64 (wrap64 (d - m) + r)
        if d1 < d then d1 else minDuration
    else
      if lessThanHalf r m then wrap64 (d - r)
      else
        let d1 := wrap64 (wrap64 (d + m) - r)
        if d < d1 then d1 else maxDuration

/-- The byte `byte(d) + '0'` of a decimal digit. -/
def digitChar (d : Nat) : Char := Char.ofNat (48 + d)

/-- The loop of Go `fmtInt`: the digits of `v`, least significant first, are
put in front of `buf`.  A `uint64` has at most 20 digits. -/
def fmtIntLoop : Nat → Nat → List Char → List Char
  | 0, _, buf => buf
  | fuel + 1, v, buf =>
    if v = 0 then buf else fmtIntLoop fuel (v / 10) (digitChar (v % 10) :: buf)

/-- Go `fmtInt`: formats `v` into the tail of the buffer. -/
def fmtInt (buf : List Char) (v : Nat) : List Char :=
  if v = 0 then '0' :: buf else fmtIntLoop 20 v buf

/-- The loop of Go `fmtFrac` over `prec` digits; `pr` is its flag `print`. -/
def fmtFracLoop : Nat → Nat → Bool → List Char → List Char × Nat × Bool
  | 0, v, pr, buf => (buf, v, pr)
  | i + 1, v, pr, buf =>
    let digit := v % 10
    let pr := pr || decide (digit ≠ 0)
    fmtFracLoop i (v / 10) pr (if pr then digitChar digit :: buf else buf)

/-- Go `fmtFrac`: the fraction of `v/10^prec` without trailing zeros, and
`v/10^prec`. -/
def fmtFrac (buf : List Char) (v prec : Nat) : List Char × Nat :=
  let res := fmtFracLoop prec v false buf
  (if res.2.2 then '.' :: res.1 else res.1, res.2.1)

/-- Go `Duration.format`, the buffer being a list filled from the back. -/
def Duration.format (d : Duration) : List Char :=
  let u : Nat := d.natAbs
  let body : List Char :=
    if u < 1000000000 then
      if u = 0 then ['0', 's']
      else if u < 1000 then
        let f := fmtFrac ['n', 's'] u 0
        fmtInt f.1 f.2
      else if u < 1000000 then
        let f := fmtFrac ['µ', 's'] u 3
        fmtInt f.1 f.2
      else
        let f := fmtFrac ['m', 's'] u 6
        fmtInt f.1 f.2
    else
      let f := fmtFrac ['s'] u 9
      let buf := fmtInt f.1 (f.2 % 60)
      let u := f.2 / 60
      if 0 < u then
        let buf := fmtInt ('m' :: buf) (u % 60)
        let u := u / 60
        if 0 < u then fmtInt ('h' :: buf) u else buf
      else buf
  if d < 0 then '-' :: body else body

/-- Go `Duration.String`, e.g. "5s", "1m30s", "1h0m0s", "1.5ms". -/
def Duration.String (d : Duration) : String := String.mk (Duration.format d)

end GoTime

open GoTime

namespace task

/-- Go `type Status string`. -/
abbrev Status := String

def StatusPending : Status := "pending"
def StatusRunning : Status := "running"
def StatusCompleted : Status := "completed"

/-- Go `Task` struct without its mutex, which is modelled by atomic steps. -/
structure Task where
  ID : String
  Status : Status
  CreatedAt : Time
  StartedAt : Time
  CompletedAt : Time
  deriving DecidableEq, Repr

/-- Go `New`: `id` is the result of `uuid.NewString()`, `now` of `time.Now()`;
the fields left out of the literal have their zero value. -/
def New (id : String) (now : Time) : task.Task :=
  { ID := id, Status := StatusPending, CreatedAt := now, StartedAt := 0, CompletedAt := 0 }

/-- First critical section of `SimulateIOBoundWork` (task.go 50-53). -/
def beginUpdate (now : Time) (t : task.Task) : task.Task :=
  { t with Status := StatusRunning, StartedAt := now }

/-- Second critical section of `SimulateIOBoundWork` (task.go 61-64). -/
def finishUpdate (now : Time) (t : task.Task) : task.Task :=
  { t with Status := StatusCompleted, CompletedAt := now }

/-- The duration computed at task.go 55-57; `int63n` is `rand.Int63n`. -/
def sleepDuration (int63n : Int → Int) : Duration :=
  let minDuration := 3 * Minute
  let maxDuration := 5 * Minute
  wrap64 (minDuration + int63n (wrap64 (wrap64 (maxDuration - minDuration) + Nanosecond)))

/-- Local state of one call of `SimulateIOBoundWork`: the program counter
(0 before the first critical section, 1 before the sleep, 2 before the second
critical section, 3 returned) and the calls made to `SleepFunc` so far. -/
structure Worker where
  pc : Nat
  slept : List Duration
  deriving DecidableEq, Repr

/-- A call of `SimulateIOBoundWork` that has not run yet. -/
def Worker.start : Worker := { pc := 0, slept := [] }

/-- One atomic step of `SimulateIOBoundWork` on the task `t`; `now` is what
`time.Now()` returns if the step calls it. -/
def Worker.step (now : Time) (int63n : Int → Int) (w : Worker) (t : task.Task) : Worker × task.Task :=
  match w.pc with
  | 0 => ({ w with pc := 1 }, beginUpdate now t)
  | 1 => ({ pc := 2, slept := w.slept ++ [sleepDuration int63n] }, t)
  | 2 => ({ w with pc := 3 }, finishUpdate now t)
  | _ => (w, t)

/-- Go `SimulateIOBoundWork` run from start to return with nothing in between:
`now₁` and `now₂` are the two results of `time.Now()`. -/
def SimulateIOBoundWork (now₁ now₂ : Time) (int63n : Int → Int) (t : task.Task) : Worker × task.Task :=
  let s₁ := Worker.step now₁ int63n Worker.start t
  let s₂ := Worker.step now₁ int63n s₁.1 s₁.2
  Worker.step now₂ int63n s₂.1 s₂.2

def GetStatus (t : task.Task) : Status := t.Status

def GetCreatedAt (t : task.Task) : Time := t.CreatedAt

def GetStartedAt (t : task.Task) : Time := t.StartedAt

def GetCompletedAt (t : task.Task) : Time := t.CompletedAt

/-- Go `GetDuration`; `now` is the clock reading used by `time.Since`. -/
def GetDuration (now : Time) (t : task.Task) : String :=
  if t.Status = StatusPending then ""
  else if t.Status = StatusRunning then Duration.String (Duration.Round (Since now t.StartedAt) Second)
  else if t.Status = StatusCompleted then
    Duration.String (Duration.Round (Time.Sub t.CompletedAt t.StartedAt) Second)
  else ""

/-- Position of a status in the order pending < running < completed; a
`Status` is any string, the other strings have no position. -/
def statusRank (s : Status) : Option Nat :=
  if s = StatusPending then some 0
  else if s = StatusRunning then some 1
  else if s = StatusCompleted then some 2
  else none

/-- The status `b` comes earlier than `a` in pending < running < completed. -/
def movesEarlier (a b : Status) : Bool :=
  match statusRank a, statusRank b with
  | some i, some j => decide (j < i)
  | _, _ => false

/-- The operations of package `task` on an existing task, with the inputs
they take from the clock and the random source. -/
inductive Op where
  | simulateIOBoundWork (now₁ now₂ : Time) (int63n : Int → Int)
  | getStatus
  | getCreatedAt
  | getStartedAt
  | getCompletedAt
  | getDuration (now : Time)

/-- The getters, which only take the read lock. -/
def Op.isGetter : Op → Bool
  | .simulateIOBoundWork _ _ _ => false
  | _ => true

/-- The task after each atomic step of the operation, in order.  A getter is
one step under the read lock and writes nothing. -/
def Op.states : Op → task.Task → List task.Task
  | .simulateIOBoundWork now₁ now₂ int63n, t =>
    let s₁ := Worker.step now₁ int63n Worker.start t
    let s₂ := Worker.step now₁ int63n s₁.1 s₁.2
    let s₃ := Worker.step now₂ int63n s₂.1 s₂.2
    [s₁.2, s₂.2, s₃.2]
  | _, t => [t]

end task

namespace repo

/-- A `*task.Task`: an address, `0` being `nil`. -/
abbrev Ptr := Nat

/-- The nil pointer. -/
def nil : Ptr := 0

/-- The struct stored at each address other than `nil`. -/
abbrev Heap := Ptr → task.Task

/-- Go `TaskRepo` without its mutex: the map `tasks`. -/
structure TaskRepo where
  tasks : Finmap (fun _ : String => Ptr)
  deriving DecidableEq

/-- Go `New`: `make(map[string]*task.Task)`. -/
def New : TaskRepo := { tasks := ∅ }

/-- Go `len(r.tasks)`. -/
def TaskRepo.len (r : TaskRepo) : Nat := r.tasks.keys.card

/-- Go `AddTask`: `r.tasks[t.ID] = t`.  Reading `t.ID` through a nil pointer
panics, which is `none`. -/
def AddTask (h : Heap) (r : TaskRepo) (t : Ptr) : Option TaskRepo :=
  if t = nil then none else some { tasks := r.tasks.insert (h t).ID t }

/-- The message of `fmt.Errorf("task with ID %s not found", id)`. -/
def notFound (id : String) : String := "task with ID " ++ id ++ " not found"

/-- The error mentions "not found", as the tests of the package check with
`assert.Contains`. -/
def IsNotFound (e : String) : Prop := "not found".data <:+: e.data

/-- Go `GetTask`, returning its result and the registry it leaves. -/
def GetTask (r : TaskRepo) (id : String) : Except String Ptr × TaskRepo :=
  match r.tasks.lookup id with
  | none => (.error (notFound id), r)
  | some t => (.ok t, r)

/-- Go `DeleteTask`, returning its error (or `ok`) and the registry it leaves. -/
def DeleteTask (r : TaskRepo) (id : String) : Except String Unit × TaskRepo :=
  match r.tasks.lookup id with
  | none => (.error (notFound id), r)
  | some _ => (.ok (), { tasks := r.tasks.erase id })

/-- One `AddTask` call per pointer of `ts`, the calls taking the lock of the
registry in the order of the list. -/
def addAll (h : Heap) (r : TaskRepo) (ts : List Ptr) : Option TaskRepo :=
  ts.foldlM (AddTask h) r

end repo

namespace dto

/-- Go `dto.TaskResponse`. -/
structure TaskResponse where
  ID : String
  Status : task.Status
  CreatedAt : Time
  StartedAt : Time
  CompletedAt : Time
  Duration : String
  deriving DecidableEq, Repr

end dto

namespace handler

/-- Local state of one `GetTaskStatus` request after `h.repo.GetTask(id)` has
succeeded: the program counter, the status passed to `log.Info` and the
response literal as far as it has been evaluated.  Each step evaluates one
operand (handler.go 75-88): 0 the `t.GetStatus()` of the log call, 1 `t.ID`,
2 `t.GetStatus()`, 3 `t.GetCreatedAt()`, 4 `t.GetStartedAt()`,
5 `t.GetCompletedAt()`, 6 `t.GetDuration()`; at 7 the response is complete. -/
structure Query where
  pc : Nat
  logged : List task.Status
  resp : dto.TaskResponse
  deriving DecidableEq, Repr

/-- A request that has found its task and read nothing yet. -/
def Query.start : Query :=
  { pc := 0, logged := [],
    resp := { ID := "", Status := "", CreatedAt := 0, StartedAt := 0, CompletedAt := 0,
              Duration := "" } }

/-- One atomic step of the request on the task `t`, at clock reading `now`. -/
def Query.step (now : Time) (q : Query) (t : task.Task) : Query :=
  match q.pc with
  | 0 => { q with pc := 1, logged := q.logged ++ [task.GetStatus t] }
  | 1 => { q with pc := 2, resp := { q.resp with ID := t.ID } }
  | 2 => { q with pc := 3, resp := { q.resp with Status := task.GetStatus t } }
  | 3 => { q with pc := 4, resp := { q.resp with CreatedAt := task.GetCreatedAt t } }
  | 4 => { q with pc := 5, resp := { q.resp with StartedAt := task.GetStartedAt t } }
  | 5 => { q with pc := 6, resp := { q.resp with CompletedAt := task.GetCompletedAt t } }
  | 6 => { q with pc := 7, resp := { q.resp with Duration := task.GetDuration now t } }
  | _ => q

/-- The response a request builds when all six fields are read from one task
state `t`, as they are when nothing runs in between. -/
def snapshot (now : Time) (t : task.Task) : dto.TaskResponse :=
  { ID := t.ID, Status := task.GetStatus t, CreatedAt := task.GetCreatedAt t,
    StartedAt := task.GetStartedAt t, CompletedAt := task.GetCompletedAt t,
    Duration := task.GetDuration now t }

/-- The two goroutines that share the task: the one running
`SimulateIOBoundWork` and the one serving `GetTaskStatus`. -/
inductive Thread where
  | worker
  | query
  deriving DecidableEq, Repr

/-- The shared task with the local states of the two goroutines. -/
structure Sys where
  shared : task.Task
  w : task.Worker
  q : Query
  deriving DecidableEq, Repr

/-- Both goroutines at their start on the task `t`. -/
def Sys.init (t : task.Task) : Sys := { shared := t, w := task.Worker.start, q := Query.start }

/-- The goroutine `e.1` takes its next atomic step, the clock showing `e.2`.
A goroutine that has finished does nothing. -/
def Sys.step (int63n : Int → Int) (s : Sys) (e : Thread × Time) : Sys :=
  match e.1 with
  | .worker =>
    let r := task.Worker.step e.2 int63n s.w s.shared
    { s with w := r.1, shared := r.2 }
  | .query => { s with q := Query.step e.2 s.q s.shared }

/-- Run of an interleaving: the schedule lists which goroutine steps next. -/
def Sys.run (int63n : Int → Int) (s : Sys) (sched : List (Thread × Time)) : Sys :=
  sched.foldl (Sys.step int63n) s

/-- The shared task after the first `i` steps of the schedule. -/
def taskAt (int63n : Int → Int) (t : task.Task) (sched : List (Thread × Time)) (i : Nat) :
    task.Task :=
  (Sys.run int63n (Sys.init t) (sched.take i)).shared

/-- The fields of the response evaluated so far were read from the task
states `T i₀`, ..., `T i₅`, taken in this order among the first `n` states. -/
def Query.ReadFrom (T : Nat → task.Task) (n : Nat) (q : Query) : Prop :=
  ∃ i₀ i₁ i₂ i₃ i₄ i₅ : Nat,
    i₀ ≤ i₁ ∧ i₁ ≤ i₂ ∧ i₂ ≤ i₃ ∧ i₃ ≤ i₄ ∧ i₄ ≤ i₅ ∧ i₅ ≤ n ∧
    (2 ≤ q.pc → q.resp.ID = (T i₀).ID) ∧
    (3 ≤ q.pc → q.resp.Status = task.GetStatus (T i₁)) ∧
    (4 ≤ q.pc → q.resp.CreatedAt = task.GetCreatedAt (T i₂)) ∧
    (5 ≤ q.pc → q.resp.StartedAt = task.GetStartedAt (T i₃)) ∧
    (6 ≤ q.pc → q.resp.CompletedAt = task.GetCompletedAt (T i₄)) ∧
    (7 ≤ q.pc → ∃ now, q.resp.Duration = task.GetDuration now (T i₅))

end handler

namespace task

/-- The statement of C6 for one operation on one task: along the task states
the operation goes through, the status never moves to an earlier value. -/
def StatusMonotone (op : Op) (t : task.Task) : Prop :=
  List.Chain (fun a b => movesEarlier a.Status b.Status = false) t (op.states t)

end task

namespace Sample

/-- A task that has completed. -/
def completedTask : task.Task :=
  { ID := "done", Status := task.StatusCompleted, CreatedAt := 10, StartedAt := 20,
    CompletedAt := 30 }

/-- A task about to run, as `task.New` returns it. -/
def freshTask : task.Task := task.New "fresh" 10

/-- A completed task whose `CompletedAt` is 1.5 seconds after `StartedAt`. -/
def shortTask : task.Task :=
  { ID := "short", Status := task.StatusCompleted, CreatedAt := 10, StartedAt := 20,
    CompletedAt := 1500000020 }

/-- A struct literal with status completed and a `CompletedAt` in the year
2026, `StartedAt` left at its zero value. -/
def neverStarted : task.Task :=
  { ID := "literal", Status := task.StatusCompleted, CreatedAt := 63897984000000000000,
    StartedAt := 0, CompletedAt := 63897984000000000000 }

/-- A heap with the tasks "a", "b" and, at every other address, "c". -/
def heap : repo.Heap := fun p =>
  if p = 1 then task.New "a" 10 else if p = 2 then task.New "b" 11 else task.New "c" 12

/-- A registry that holds address 7 under the id "a". -/
def registry : repo.TaskRepo := { tasks := (∅ : Finmap (fun _ : String => repo.Ptr)).insert "a" 7 }

/-- A random source that always returns `0`. -/
def int63nMin : Int → Int := fun _ => 0

/-- A random source that returns the largest value below its argument. -/
def int63nMax : Int → Int := fun n => n - 1

/-- A query that reads the status before the worker has begun and the rest
after the first update. -/
def tornPending : List (handler.Thread × Time) :=
  [(.query, 20), (.query, 20), (.query, 20), (.worker, 30), (.query, 40), (.query, 40),
   (.query, 40), (.query, 40)]

/-- A query that reads the status while the task runs and the rest after the
second update. -/
def tornRunning : List (handler.Thread × Time) :=
  [(.worker, 30), (.query, 40), (.query, 40), (.query, 40), (.worker, 50), (.worker, 60),
   (.query, 70), (.query, 70), (.query, 70), (.query, 70)]

end Sample

/-! ## Task registry (`internal/repo/repo.go`) -/

theorem notFound_isNotFound (id : String) : repo.IsNotFound (repo.notFound id) := by
  refine ⟨"task with ID ".data ++ id.data ++ [' '], [], ?_⟩
  simp [repo.notFound, String.data_append]

theorem GetTask_fst (r : repo.TaskRepo) (id : String) :
    (repo.GetTask r id).1 =
      match r.tasks.lookup id with
      | none => .error (repo.notFound id)
      | some t => .ok t := by
  unfold repo.GetTask
  cases r.tasks.lookup id <;> rfl

theorem GetTask_snd (r : repo.TaskRepo) (id : String) : (repo.GetTask r id).2 = r := by
  unfold repo.GetTask
  cases r.tasks.lookup id <;> rfl

theorem keys_insert_eq (m : Finmap (fun _ : String => repo.Ptr)) (k : String) (v : repo.Ptr) :
    (m.insert k v).keys = insert k m.keys := by
  ext a
  simp [Finmap.mem_keys, Finmap.mem_insert]

/-- C1: `GetTask` fails with the not-found error exactly when nothing is stored
under the id; otherwise it returns the stored pointer; it never changes the
registry; on the registry of `repo.New` it fails for every id. -/
theorem C1_GetTask_notFound_iff_absent (r : repo.TaskRepo) (id : String) :
    ((∃ e, (repo.GetTask r id).1 = .error e ∧ repo.IsNotFound e) ↔ r.tasks.lookup id = none) ∧
    ((repo.GetTask r id).1 = .error (repo.notFound id) ↔ r.tasks.lookup id = none) ∧
    (∀ t, r.tasks.lookup id = some t → repo.GetTask r id = (.ok t, r)) ∧
    (repo.GetTask r id).2 = r ∧
    repo.GetTask repo.New id = (.error (repo.notFound id), repo.New) ∧
    repo.IsNotFound (repo.notFound id) := by
  refine ⟨?_, ?_, ?_, GetTask_snd r id, ?_, notFound_isNotFound id⟩
  · rw [GetTask_fst]
    cases h : r.tasks.lookup id with
    | none => exact ⟨fun _ => rfl, fun _ => ⟨repo.notFound id, rfl, notFound_isNotFound id⟩⟩
    | some t => simp
  · rw [GetTask_fst]
    cases h : r.tasks.lookup id <;> simp
  · intro t ht
    simp [repo.GetTask, ht]
  · simp [repo.GetTask, repo.New, Finmap.lookup_empty]

/-- C2: after `AddTask(t)` on any registry, `GetTask(t.ID)` succeeds and
returns the pointer `t` itself, whatever was stored under that id before. -/
theorem C2_AddTask_then_GetTask (h : repo.Heap) (r : repo.TaskRepo) (t : repo.Ptr)
    (ht : t ≠ repo.nil) :
    ∃ r', repo.AddTask h r t = some r' ∧ repo.GetTask r' (h t).ID = (.ok t, r') := by
  refine ⟨{ tasks := r.tasks.insert (h t).ID t }, by simp [repo.AddTask, ht], ?_⟩
  simp [repo.GetTask, Finmap.lookup_insert]

/-- C3: for an id stored in the registry, `DeleteTask(id)` returns no error and
afterwards `GetTask(id)` fails with the not-found error. -/
theorem C3_DeleteTask_then_GetTask (r : repo.TaskRepo) (id : String)
    (hin : (r.tasks.lookup id).isSome = true) :
    (repo.DeleteTask r id).1 = .ok () ∧
    repo.GetTask (repo.DeleteTask r id).2 id =
      (.error (repo.notFound id), (repo.DeleteTask r id).2) ∧
    repo.IsNotFound (repo.notFound id) := by
  obtain ⟨t, ht⟩ := Option.isSome_iff_exists.mp hin
  refine ⟨by simp [repo.DeleteTask, ht], ?_, notFound_isNotFound id⟩
  simp [repo.DeleteTask, ht, repo.GetTask, Finmap.lookup_erase]

/-- C4: `DeleteTask` fails with the not-found error exactly when nothing is
stored under the id, and a failing `DeleteTask` leaves the registry as it was. -/
theorem C4_DeleteTask_notFound_iff_absent (r : repo.TaskRepo) (id : String) :
    ((∃ e, (repo.DeleteTask r id).1 = .error e ∧ repo.IsNotFound e) ↔
      r.tasks.lookup id = none) ∧
    ((repo.DeleteTask r id).1 = .error (repo.notFound id) ↔ r.tasks.lookup id = none) ∧
    (∀ e, (repo.DeleteTask r id).1 = .error e →
      (repo.DeleteTask r id).2 = r ∧
      ∀ k, (repo.DeleteTask r id).2.tasks.lookup k = r.tasks.lookup k) := by
  unfold repo.DeleteTask
  cases h : r.tasks.lookup id with
  | none =>
    exact ⟨⟨fun _ => rfl, fun _ => ⟨repo.notFound id, rfl, notFound_isNotFound id⟩⟩,
      ⟨fun _ => rfl, fun _ => rfl⟩, fun _ _ => ⟨rfl, fun _ => rfl⟩⟩
  | some t => simp

theorem addAll_spec (h : repo.Heap) (ts : List repo.Ptr) :
    ∀ r : repo.TaskRepo, (∀ p ∈ ts, p ≠ repo.nil) →
      (ts.map (fun p => (h p).ID)).Nodup →
      ∃ r', repo.addAll h r ts = some r' ∧
        (∀ p ∈ ts, r'.tasks.lookup (h p).ID = some p) ∧
        (∀ id, id ∉ ts.map (fun p => (h p).ID) → r'.tasks.lookup id = r.tasks.lookup id) ∧
        r'.tasks.keys = r.tasks.keys ∪ (ts.map (fun p => (h p).ID)).toFinset := by
  induction ts with
  | nil =>
    intro r _ _
    exact ⟨r, rfl, by simp, by simp, by simp⟩
  | cons p ts ih =>
    intro r hnil hnd
    have hp : p ≠ repo.nil := hnil p (List.mem_cons_self _ _)
    rw [List.map_cons, List.nodup_cons] at hnd
    obtain ⟨r', hr', hget, hkeep, hkeys⟩ :=
      ih { tasks := r.tasks.insert (h p).ID p }
        (fun q hq => hnil q (List.mem_cons_of_mem _ hq)) hnd.2
    refine ⟨r', ?_, ?_, ?_, ?_⟩
    · simpa [repo.addAll, repo.AddTask, hp] using hr'
    · intro q hq
      rcases List.mem_cons.mp hq with rfl | hq
      · rw [hkeep _ hnd.1]
        exact Finmap.lookup_insert _
      · exact hget q hq
    · intro id hid
      rw [List.map_cons, List.mem_cons, not_or] at hid
      rw [hkeep id hid.2]
      exact Finmap.lookup_insert_of_ne _ hid.1
    · rw [hkeys, keys_insert_eq]
      ext a
      simp only [Finset.mem_union, Finset.mem_insert, List.map_cons, List.toFinset_cons]
      tauto

/-- C5: one `AddTask` per task of a list with pairwise distinct ids, in any
order of lock acquisition: every call completes, `GetTask` then succeeds for
each of the ids with the task added under it, and the registry has grown by
exactly the length of the list when none of the ids was stored before. -/
theorem C5_addAll_no_lost_write (h : repo.Heap) (r : repo.TaskRepo)
    (ts order : List repo.Ptr) (hnil : ∀ p ∈ ts, p ≠ repo.nil)
    (hid : (ts.map (fun p => (h p).ID)).Nodup) (hord : order.Perm ts) :
    ∃ r', repo.addAll h r order = some r' ∧
      (∀ p ∈ ts, repo.GetTask r' (h p).ID = (.ok p, r')) ∧
      ((∀ p ∈ ts, r.tasks.lookup (h p).ID = none) → r'.len = r.len + ts.length) := by
  have hnd : (order.map (fun p => (h p).ID)).Nodup :=
    (List.Perm.nodup_iff (List.Perm.map _ hord)).mpr hid
  obtain ⟨r', hr', hget, _, hkeys⟩ :=
    addAll_spec h order r (fun p hp => hnil p (hord.mem_iff.mp hp)) hnd
  refine ⟨r', hr', ?_, ?_⟩
  · intro p hp
    simp [repo.GetTask, hget p (hord.mem_iff.mpr hp)]
  · intro hnew
    have hdisj : Disjoint r.tasks.keys (order.map (fun p => (h p).ID)).toFinset := by
      rw [Finset.disjoint_left]
      intro a ha hb
      rw [List.mem_toFinset, List.mem_map] at hb
      obtain ⟨p, hp, rfl⟩ := hb
      have hn := hnew p (hord.mem_iff.mp hp)
      rw [Finmap.lookup_eq_none] at hn
      exact hn (Finmap.mem_keys.mp ha)
    unfold repo.TaskRepo.len
    rw [hkeys, Finset.card_union_of_disjoint hdisj, List.toFinset_card_of_nodup hnd,
      List.length_map, hord.length_eq]

/-! ## Task lifecycle (`internal/task/task.go`) -/

theorem second_eq : Second = 1000000000 := by decide

theorem minute_eq : Minute = 60000000000 := by decide

theorem tmod_second (x : Int) :
    Int.tmod x Second = if x < 0 then -((-x) % 1000000000) else x % 1000000000 := by
  have hs : Second = (1000000000 : Int) := by decide
  rw [hs]
  split_ifs with hx
  · obtain ⟨n, rfl⟩ := Int.eq_negSucc_of_lt_zero hx
    show -(((n.succ % 1000000000 : Nat)) : Int) = _
    rw [Int.neg_negSucc]
    omega
  · exact Int.tmod_eq_emod (by omega) (by omega)

theorem wrap64_id (y : Int) (hlo : -9223372036854775808 ≤ y)
    (hhi : y ≤ 9223372036854775807) : wrap64 y = y := by
  unfold wrap64
  omega

theorem wrap64_add_left (a b : Int) : wrap64 (wrap64 a + b) = wrap64 (a + b) := by
  unfold wrap64
  omega

theorem wrap64_sub_left (a b : Int) : wrap64 (wrap64 a - b) = wrap64 (a - b) := by
  unfold wrap64
  omega

theorem lessThanHalf_second (r : Int) (h0 : 0 ≤ r) (h1 : r < 1000000000) :
    lessThanHalf r 1000000000 = decide (2 * r < 1000000000) := by
  unfold lessThanHalf toUint64
  congr 1
  apply propext
  constructor <;> intro h <;> omega

theorem round_second_spec (x : Int) (hlo : -9223372036500000000 < x)
    (hhi : x < 9223372036500000000) :
    Duration.Round x Second % 1000000000 = 0 ∧
    2 * (Duration.Round x Second - x) ≤ 1000000000 ∧
    2 * (x - Duration.Round x Second) ≤ 1000000000 := by
  unfold Duration.Round
  have hs : Second = (1000000000 : Int) := by decide
  simp only [tmod_second]
  simp only [hs]
  rw [if_neg (by decide)]
  unfold Duration
  by_cases hneg : x < 0
  · simp only [if_pos hneg, neg_neg]
    generalize hr : (-x) % 1000000000 = r
    have h0 : 0 ≤ r := by omega
    have h1 : r < 1000000000 := by omega
    rw [wrap64_id r (by omega) (by omega), lessThanHalf_second r h0 h1]
    by_cases hhalf : 2 * r < 1000000000
    · simp only [hhalf, decide_True, if_true]
      rw [wrap64_id (x + r) (by omega) (by omega)]
      omega
    · simp only [hhalf, decide_False, if_false, Bool.false_eq_true]
      rw [wrap64_add_left, wrap64_id (x - 1000000000 + r) (by omega) (by omega)]
      rw [if_pos (by omega)]
      omega
  · simp only [if_neg hneg]
    generalize hr : x % 1000000000 = r
    have h0 : 0 ≤ r := by omega
    have h1 : r < 1000000000 := by omega
    rw [lessThanHalf_second r h0 h1]
    by_cases hhalf : 2 * r < 1000000000
    · simp only [hhalf, decide_True, if_true]
      rw [wrap64_id (x - r) (by omega) (by omega)]
      omega
    · simp only [hhalf, decide_False, if_false, Bool.false_eq_true]
      rw [wrap64_sub_left, wrap64_id (x + 1000000000 - r) (by omega) (by omega)]
      rw [if_pos (by omega)]
      omega

theorem sub_exact (t u : Int) (hlo : -9223372036500000000 < t - u)
    (hhi : t - u < 9223372036500000000) : Time.Sub t u = t - u := by
  unfold Time.Sub
  simp only [minDuration, maxDuration]
  split_ifs with h₁ h₂
  · unfold Time at h₁
    omega
  · unfold Duration at h₂
    omega
  · rfl

theorem status_ne : task.StatusRunning ≠ task.StatusPending ∧
    task.StatusCompleted ≠ task.StatusPending ∧
    task.StatusCompleted ≠ task.StatusRunning := by decide

theorem movesEarlier_self (s : task.Status) : task.movesEarlier s s = false := by
  unfold task.movesEarlier
  cases task.statusRank s <;> simp

theorem movesEarlier_to_running (s : task.Status) (hs : s ≠ task.StatusCompleted) :
    task.movesEarlier s task.StatusRunning = false := by
  unfold task.movesEarlier task.statusRank
  by_cases h₁ : s = task.StatusPending
  · subst h₁
    decide
  · by_cases h₂ : s = task.StatusRunning
    · subst h₂
      decide
    · simp [h₁, h₂, hs]

/-- C6, as the code has it: `SimulateIOBoundWork` assigns the status without
looking at it, so the status never moves to an earlier value when the task is
not yet completed at the call (pending, as in the service, or running), and
the getters write nothing whatever the state is. -/
theorem C6_status_monotone_unless_completed (op : task.Op) (t : task.Task)
    (h : t.Status ≠ task.StatusCompleted ∨ op.isGetter = true) :
    task.StatusMonotone op t := by
  unfold task.StatusMonotone
  cases op with
  | simulateIOBoundWork now₁ now₂ int63n =>
    have ht : t.Status ≠ task.StatusCompleted := by
      rcases h with h | h
      · exact h
      · simp [task.Op.isGetter] at h
    simp only [task.Op.states, task.Worker.step, task.Worker.start, task.beginUpdate,
      task.finishUpdate]
    have h₁ : task.movesEarlier task.StatusRunning task.StatusRunning = false := by decide
    have h₂ : task.movesEarlier task.StatusRunning task.StatusCompleted = false := by decide
    exact List.Chain.cons (movesEarlier_to_running _ ht)
      (List.Chain.cons h₁ (List.Chain.cons h₂ List.Chain.nil))
  | getStatus => exact List.Chain.cons (movesEarlier_self _) List.Chain.nil
  | getCreatedAt => exact List.Chain.cons (movesEarlier_self _) List.Chain.nil
  | getStartedAt => exact List.Chain.cons (movesEarlier_self _) List.Chain.nil
  | getCompletedAt => exact List.Chain.cons (movesEarlier_self _) List.Chain.nil
  | getDuration now => exact List.Chain.cons (movesEarlier_self _) List.Chain.nil

/-- C6 fails as stated: on a completed task the first update of
`SimulateIOBoundWork` sets the status back to running. -/
theorem C6_completed_task_runs_again :
    Sample.completedTask.Status = task.StatusCompleted ∧
    (task.Worker.step 40 Sample.int63nMin task.Worker.start Sample.completedTask).2.Status =
      task.StatusRunning ∧
    task.movesEarlier task.StatusCompleted task.StatusRunning = true ∧
    ¬ task.StatusMonotone (.simulateIOBoundWork 40 50 Sample.int63nMin) Sample.completedTask := by
  refine ⟨by decide, by decide, by decide, ?_⟩
  intro hc
  unfold task.StatusMonotone at hc
  have h := (List.chain_cons.mp hc).1
  revert h
  decide

theorem C6_status_monotone_witness :
    (Sample.freshTask.Status ≠ task.StatusCompleted ∨
      (task.Op.simulateIOBoundWork 40 50 Sample.int63nMin).isGetter = true) ∧
    task.StatusMonotone (.simulateIOBoundWork 40 50 Sample.int63nMin) Sample.freshTask :=
  ⟨Or.inl (by decide),
    C6_status_monotone_unless_completed _ _ (Or.inl (by decide))⟩

/-- C7: a task from `task.New` is pending with `StartedAt` and `CompletedAt`
unset; after the first critical section of `SimulateIOBoundWork` it is running
with `StartedAt` set and `CompletedAt` unset; when the call has returned it is
completed, `StartedAt` is what it was while running, `CompletedAt` is set and
not before `StartedAt`.  The clock readings are non-zero and non-decreasing. -/
theorem C7_New_then_SimulateIOBoundWork (id : String) (now₀ now₁ now₂ : Time)
    (int63n : Int → Int) (h₁ : Time.IsZero now₁ = false) (h₂ : Time.IsZero now₂ = false)
    (hle : now₁ ≤ now₂) :
    task.GetStatus (task.New id now₀) = task.StatusPending ∧
    Time.IsZero (task.GetStartedAt (task.New id now₀)) = true ∧
    Time.IsZero (task.GetCompletedAt (task.New id now₀)) = true ∧
    task.GetStatus (task.Worker.step now₁ int63n task.Worker.start (task.New id now₀)).2 =
      task.StatusRunning ∧
    Time.IsZero
      (task.GetStartedAt (task.Worker.step now₁ int63n task.Worker.start (task.New id now₀)).2) =
      false ∧
    Time.IsZero
      (task.GetCompletedAt
        (task.Worker.step now₁ int63n task.Worker.start (task.New id now₀)).2) = true ∧
    (task.SimulateIOBoundWork now₁ now₂ int63n (task.New id now₀)).1.pc = 3 ∧
    task.GetStatus (task.SimulateIOBoundWork now₁ now₂ int63n (task.New id now₀)).2 =
      task.StatusCompleted ∧
    task.GetStartedAt (task.SimulateIOBoundWork now₁ now₂ int63n (task.New id now₀)).2 =
      task.GetStartedAt
        (task.Worker.step now₁ int63n task.Worker.start (task.New id now₀)).2 ∧
    Time.IsZero
      (task.GetCompletedAt (task.SimulateIOBoundWork now₁ now₂ int63n (task.New id now₀)).2) =
      false ∧
    task.GetStartedAt (task.SimulateIOBoundWork now₁ now₂ int63n (task.New id now₀)).2 ≤
      task.GetCompletedAt (task.SimulateIOBoundWork now₁ now₂ int63n (task.New id now₀)).2 := by
  exact ⟨rfl, rfl, rfl, rfl, h₁, rfl, rfl, rfl, rfl, h₂, hle⟩

theorem C7_lifecycle_witness :
    (Time.IsZero 20 = false ∧ Time.IsZero 30 = false ∧ (20 : Time) ≤ 30) ∧
    task.GetStatus (task.SimulateIOBoundWork 20 30 Sample.int63nMin (task.New "fresh" 10)).2 =
      task.StatusCompleted ∧
    task.GetStartedAt (task.SimulateIOBoundWork 20 30 Sample.int63nMin (task.New "fresh" 10)).2 ≤
      task.GetCompletedAt
        (task.SimulateIOBoundWork 20 30 Sample.int63nMin (task.New "fresh" 10)).2 :=
  have h := C7_New_then_SimulateIOBoundWork "fresh" 10 20 30 Sample.int63nMin
    (by decide) (by decide) (by decide)
  ⟨⟨by decide, by decide, by decide⟩, h.2.2.2.2.2.2.2.1, h.2.2.2.2.2.2.2.2.2.2⟩

theorem sleepDuration_eq (int63n : Int → Int) (r : Int) (hr : int63n 120000000001 = r)
    (h0 : 0 ≤ r) (h1 : r < 120000000001) : task.sleepDuration int63n = 3 * Minute + r := by
  have hm : Minute = (60000000000 : Int) := by decide
  have hn : Nanosecond = (1 : Int) := by decide
  have ha : wrap64 (wrap64 (5 * 60000000000 - 3 * 60000000000) + 1) = 120000000001 := by
    decide
  simp only [task.sleepDuration, hm, hn, ha, hr]
  exact wrap64_id _ (by omega) (by omega)

/-- C8: one call of `SimulateIOBoundWork` calls `SleepFunc` exactly once, with
3 minutes plus the value `r` that `rand.Int63n(maxDuration-minDuration+1ns)`
returns; for `0 <= r < 120000000001` that duration lies between 3 and 5
minutes, `r = 0` giving 3 minutes and `r = 120000000000` giving 5 minutes. -/
theorem C8_sleep_once_between_3_and_5_minutes (now₁ now₂ : Time) (int63n : Int → Int)
    (t : task.Task) (r : Int) (hr : int63n 120000000001 = r) (h0 : 0 ≤ r)
    (h1 : r < 120000000001) :
    (task.SimulateIOBoundWork now₁ now₂ int63n t).1.slept = [3 * Minute + r] ∧
    3 * Minute ≤ 3 * Minute + r ∧ 3 * Minute + r ≤ 5 * Minute ∧
    (r = 0 → (task.SimulateIOBoundWork now₁ now₂ int63n t).1.slept = [3 * Minute]) ∧
    (r = 120000000000 →
      (task.SimulateIOBoundWork now₁ now₂ int63n t).1.slept = [5 * Minute]) := by
  have hs : (task.SimulateIOBoundWork now₁ now₂ int63n t).1.slept = [3 * Minute + r] := by
    simp only [task.SimulateIOBoundWork, task.Worker.step, task.Worker.start,
      sleepDuration_eq int63n r hr h0 h1, List.nil_append]
  have hm : Minute = (60000000000 : Int) := by decide
  refine ⟨hs, ?_, ?_, ?_, ?_⟩
  · rw [hm]
    show (3 * 60000000000 : Int) ≤ 3 * 60000000000 + r
    omega
  · rw [hm]
    show (3 * 60000000000 : Int) + r ≤ 5 * 60000000000
    omega
  · intro hz
    rw [hs, hz, add_zero]
  · intro hz
    rw [hs, hz, hm]
    rfl

theorem C8_sleep_bounds_attained_witness :
    (Sample.int63nMax 120000000001 = 120000000000 ∧
      (task.SimulateIOBoundWork 20 30 Sample.int63nMax Sample.freshTask).1.slept =
        [5 * Minute]) ∧
    (Sample.int63nMin 120000000001 = 0 ∧
      (task.SimulateIOBoundWork 20 30 Sample.int63nMin Sample.freshTask).1.slept =
        [3 * Minute]) :=
  ⟨⟨by decide,
    (C8_sleep_once_between_3_and_5_minutes 20 30 Sample.int63nMax Sample.freshTask
      120000000000 (by decide) (by decide) (by decide)).2.2.2.2 rfl⟩,
   ⟨by decide,
    (C8_sleep_once_between_3_and_5_minutes 20 30 Sample.int63nMin Sample.freshTask
      0 (by decide) (by decide) (by decide)).2.2.2.1 rfl⟩⟩

theorem GetDuration_completed (now : Time) (t : task.Task)
    (hc : t.Status = task.StatusCompleted) :
    task.GetDuration now t =
      Duration.String (Duration.Round (Time.Sub t.CompletedAt t.StartedAt) Second) := by
  unfold task.GetDuration
  rw [hc, if_neg status_ne.2.1, if_neg status_ne.2.2, if_pos rfl]

/-- C9, as the code has it: `GetDuration` is empty for a pending task; for a
completed task whose `CompletedAt - StartedAt` is less than 9223372036.5
seconds in absolute value (so that neither `Sub` nor `Round` saturates at the
ends of `int64`) it is the rendering of a multiple of one second at most half
a second from that difference, whatever the clock shows; and
`CompletedAt = StartedAt + 5s` gives "5s". -/
theorem C9_GetDuration_pending_and_completed (now : Time) (t : task.Task)
    (hrange : t.Status = task.StatusCompleted →
      -9223372036500000000 < t.CompletedAt - t.StartedAt ∧
      t.CompletedAt - t.StartedAt < 9223372036500000000) :
    (t.Status = task.StatusPending → task.GetDuration now t = "") ∧
    (t.Status = task.StatusCompleted →
      task.GetDuration now t =
        Duration.String (Duration.Round (Time.Sub t.CompletedAt t.StartedAt) Second) ∧
      Duration.Round (Time.Sub t.CompletedAt t.StartedAt) Second % Second = 0 ∧
      2 * (Duration.Round (Time.Sub t.CompletedAt t.StartedAt) Second -
        (t.CompletedAt - t.StartedAt)) ≤ Second ∧
      2 * ((t.CompletedAt - t.StartedAt) -
        Duration.Round (Time.Sub t.CompletedAt t.StartedAt) Second) ≤ Second) ∧
    (t.Status = task.StatusCompleted → t.CompletedAt = t.StartedAt + 5 * Second →
      task.GetDuration now t = "5s") := by
  refine ⟨?_, ?_, ?_⟩
  · intro hp
    unfold task.GetDuration
    rw [if_pos hp]
  · intro hc
    obtain ⟨hlo, hhi⟩ := hrange hc
    have hs : Second = (1000000000 : Int) := by decide
    have hsub := sub_exact t.CompletedAt t.StartedAt hlo hhi
    have hround := round_second_spec (t.CompletedAt - t.StartedAt) hlo hhi
    rw [hsub, hs]
    exact ⟨by rw [GetDuration_completed now t hc, hsub, hs], hround.1, hround.2.1, hround.2.2⟩
  · intro hc h5
    have hd : t.CompletedAt - t.StartedAt = 5000000000 := by
      rw [h5]
      have hs : Second = (1000000000 : Int) := by decide
      rw [hs]
      unfold Time
      omega
    have hsub : Time.Sub t.CompletedAt t.StartedAt = 5000000000 := by
      rw [sub_exact t.CompletedAt t.StartedAt (by rw [hd]; decide) (by rw [hd]; decide), hd]
    rw [GetDuration_completed now t hc, hsub]
    decide

theorem C9_GetDuration_witness :
    (Sample.shortTask.Status = task.StatusCompleted ∧
      Sample.shortTask.CompletedAt - Sample.shortTask.StartedAt = 1500000000) ∧
    task.GetDuration 99 Sample.shortTask =
      Duration.String
        (Duration.Round (Time.Sub Sample.shortTask.CompletedAt Sample.shortTask.StartedAt)
          Second) ∧
    Duration.Round (Time.Sub Sample.shortTask.CompletedAt Sample.shortTask.StartedAt) Second =
      2000000000 ∧
    task.GetDuration 99 Sample.shortTask = "2s" :=
  ⟨⟨by decide, by decide⟩,
    ((C9_GetDuration_pending_and_completed 99 Sample.shortTask
      (fun _ => ⟨by decide, by decide⟩)).2.1 (by decide)).1,
    by decide, by decide⟩

/-- C9 fails as stated: a completed task whose `StartedAt` was never set and
whose `CompletedAt` is in 2026 has a difference beyond the range of `int64`
nanoseconds; `Sub` and `Round` saturate and `GetDuration` renders the largest
`Duration`, which is neither a multiple of one second nor within half a second
of the difference. -/
theorem C9_saturated_difference_not_whole_seconds :
    Sample.neverStarted.Status = task.StatusCompleted ∧
    task.GetDuration 63897984000000000000 Sample.neverStarted = "2562047h47m16.854775807s" ∧
    Duration.Round
      (Time.Sub Sample.neverStarted.CompletedAt Sample.neverStarted.StartedAt) Second =
      9223372036854775807 ∧
    ¬ ∃ d : Int, d % 1000000000 = 0 ∧
      2 * (d - (Sample.neverStarted.CompletedAt - Sample.neverStarted.StartedAt)) ≤ 1000000000 ∧
      2 * ((Sample.neverStarted.CompletedAt - Sample.neverStarted.StartedAt) - d) ≤ 1000000000 ∧
      task.GetDuration 63897984000000000000 Sample.neverStarted = Duration.String d := by
  refine ⟨by decide, by decide, by decide, ?_⟩
  rintro ⟨d, hmul, h₁, h₂, hstr⟩
  have hdiff : Sample.neverStarted.CompletedAt - Sample.neverStarted.StartedAt =
      (63897984000000000000 : Int) := by decide
  rw [hdiff] at h₁ h₂
  try unfold Time at h₁ h₂
  try unfold Duration at h₁ h₂
  have hd : d = 63897984000000000000 := by omega
  subst hd
  revert hstr
  decide

/-! ## A status query racing with `SimulateIOBoundWork` -/

theorem run_snoc (int63n : Int → Int) (s : handler.Sys) (l : List (handler.Thread × Time))
    (e : handler.Thread × Time) :
    handler.Sys.run int63n s (l ++ [e]) =
      handler.Sys.step int63n (handler.Sys.run int63n s l) e := by
  simp [handler.Sys.run, List.foldl_append]

theorem taskAt_snoc (int63n : Int → Int) (t : task.Task) (l : List (handler.Thread × Time))
    (e : handler.Thread × Time) (i : Nat) (hi : i ≤ l.length) :
    handler.taskAt int63n t (l ++ [e]) i = handler.taskAt int63n t l i := by
  unfold handler.taskAt
  rw [List.take_append_of_le_length hi]

theorem taskAt_length (int63n : Int → Int) (t : task.Task) (l : List (handler.Thread × Time)) :
    handler.taskAt int63n t l l.length = (handler.Sys.run int63n (handler.Sys.init t) l).shared := by
  unfold handler.taskAt
  rw [List.take_length]

theorem query_step_pc (now : Time) (q : handler.Query) (t : task.Task) (h : q.pc ≤ 7) :
    (handler.Query.step now q t).pc ≤ 7 := by
  unfold handler.Query.step
  split <;> simp_all

theorem readFrom_mono (T : Nat → task.Task) (n m : Nat) (q : handler.Query) (hnm : n ≤ m)
    (h : handler.Query.ReadFrom T n q) : handler.Query.ReadFrom T m q := by
  obtain ⟨i₀, i₁, i₂, i₃, i₄, i₅, h₀₁, h₁₂, h₂₃, h₃₄, h₄₅, h₅, hf⟩ := h
  exact ⟨i₀, i₁, i₂, i₃, i₄, i₅, h₀₁, h₁₂, h₂₃, h₃₄, h₄₅, le_trans h₅ hnm, hf⟩

theorem readFrom_step (T : Nat → task.Task) (n : Nat) (now : Time) (q : handler.Query)
    (hpc : q.pc ≤ 7) (h : handler.Query.ReadFrom T n q) :
    handler.Query.ReadFrom T n (handler.Query.step now q (T n)) := by
  obtain ⟨i₀, i₁, i₂, i₃, i₄, i₅, h₀₁, h₁₂, h₂₃, h₃₄, h₄₅, h₅, f₀, f₁, f₂, f₃, f₄, f₅⟩ := h
  have hcases : q.pc = 0 ∨ q.pc = 1 ∨ q.pc = 2 ∨ q.pc = 3 ∨ q.pc = 4 ∨ q.pc = 5 ∨
      q.pc = 6 ∨ q.pc = 7 := by omega
  rcases hcases with hq | hq | hq | hq | hq | hq | hq | hq
  · refine ⟨n, n, n, n, n, n, le_refl _, le_refl _, le_refl _, le_refl _, le_refl _,
      le_refl _, ?_⟩
    simp [handler.Query.step, hq]
  · refine ⟨n, n, n, n, n, n, le_refl _, le_refl _, le_refl _, le_refl _, le_refl _,
      le_refl _, ?_⟩
    simp [handler.Query.step, hq]
  · refine ⟨i₀, n, n, n, n, n, by omega, le_refl _, le_refl _, le_refl _, le_refl _,
      le_refl _, ?_⟩
    have g₀ := f₀ (by omega)
    simp [handler.Query.step, hq, g₀]
  · refine ⟨i₀, i₁, n, n, n, n, h₀₁, by omega, le_refl _, le_refl _, le_refl _,
      le_refl _, ?_⟩
    have g₀ := f₀ (by omega)
    have g₁ := f₁ (by omega)
    simp [handler.Query.step, hq, g₀, g₁]
  · refine ⟨i₀, i₁, i₂, n, n, n, h₀₁, h₁₂, by omega, le_refl _, le_refl _,
      le_refl _, ?_⟩
    have g₀ := f₀ (by omega)
    have g₁ := f₁ (by omega)
    have g₂ := f₂ (by omega)
    simp [handler.Query.step, hq, g₀, g₁, g₂]
  · refine ⟨i₀, i₁, i₂, i₃, n, n, h₀₁, h₁₂, h₂₃, by omega, le_refl _,
      le_refl _, ?_⟩
    have g₀ := f₀ (by omega)
    have g₁ := f₁ (by omega)
    have g₂ := f₂ (by omega)
    have g₃ := f₃ (by omega)
    simp [handler.Query.step, hq, g₀, g₁, g₂, g₃]
  · refine ⟨i₀, i₁, i₂, i₃, i₄, n, h₀₁, h₁₂, h₂₃, h₃₄, by omega, le_refl _, ?_⟩
    have g₀ := f₀ (by omega)
    have g₁ := f₁ (by omega)
    have g₂ := f₂ (by omega)
    have g₃ := f₃ (by omega)
    have g₄ := f₄ (by omega)
    simp only [handler.Query.step, hq]
    exact ⟨fun _ => g₀, fun _ => g₁, fun _ => g₂, fun _ => g₃, fun _ => g₄,
      fun _ => ⟨now, rfl⟩⟩
  · have hstep : handler.Query.step now q (T n) = q := by
      simp [handler.Query.step, hq]
    rw [hstep]
    exact ⟨i₀, i₁, i₂, i₃, i₄, i₅, h₀₁, h₁₂, h₂₃, h₃₄, h₄₅, h₅, f₀, f₁, f₂, f₃, f₄, f₅⟩

theorem readFrom_congr (T T' : Nat → task.Task) (n : Nat) (q : handler.Query)
    (hT : ∀ i, i ≤ n → T i = T' i) (h : handler.Query.ReadFrom T n q) :
    handler.Query.ReadFrom T' n q := by
  obtain ⟨i₀, i₁, i₂, i₃, i₄, i₅, h₀₁, h₁₂, h₂₃, h₃₄, h₄₅, h₅, f₀, f₁, f₂, f₃, f₄, f₅⟩ := h
  refine ⟨i₀, i₁, i₂, i₃, i₄, i₅, h₀₁, h₁₂, h₂₃, h₃₄, h₄₅, h₅, ?_, ?_, ?_, ?_, ?_, ?_⟩
  · rw [← hT i₀ (by omega)]
    exact f₀
  · rw [← hT i₁ (by omega)]
    exact f₁
  · rw [← hT i₂ (by omega)]
    exact f₂
  · rw [← hT i₃ (by omega)]
    exact f₃
  · rw [← hT i₄ (by omega)]
    exact f₄
  · rw [← hT i₅ (by omega)]
    exact f₅

theorem run_readFrom (int63n : Int → Int) (t : task.Task)
    (sched : List (handler.Thread × Time)) :
    (handler.Sys.run int63n (handler.Sys.init t) sched).q.pc ≤ 7 ∧
    handler.Query.ReadFrom (handler.taskAt int63n t sched) sched.length
      (handler.Sys.run int63n (handler.Sys.init t) sched).q := by
  induction sched using List.reverseRecOn with
  | nil =>
    refine ⟨Nat.zero_le 7, 0, 0, 0, 0, 0, 0, le_refl _, le_refl _, le_refl _, le_refl _,
      le_refl _, le_refl _, ?_⟩
    simp [handler.Sys.run, handler.Sys.init, handler.Query.start]
  | append_singleton l e ih =>
    obtain ⟨hpc, hrf⟩ := ih
    have hrf' : handler.Query.ReadFrom (handler.taskAt int63n t (l ++ [e])) l.length
        (handler.Sys.run int63n (handler.Sys.init t) l).q :=
      readFrom_congr _ _ _ _ (fun i hi => (taskAt_snoc int63n t l e i hi).symm) hrf
    have hlen : l.length ≤ (l ++ [e]).length := by simp
    rw [run_snoc]
    obtain ⟨th, now⟩ := e
    cases th with
    | worker => exact ⟨hpc, readFrom_mono _ _ _ _ hlen hrf'⟩
    | query =>
      have hshared : (handler.Sys.run int63n (handler.Sys.init t) l).shared =
          handler.taskAt int63n t (l ++ [(handler.Thread.query, now)]) l.length := by
        rw [taskAt_snoc int63n t l _ _ (le_refl _), taskAt_length]
      refine ⟨query_step_pc _ _ _ hpc, readFrom_mono _ _ _ _ hlen ?_⟩
      show handler.Query.ReadFrom _ _
        (handler.Query.step now (handler.Sys.run int63n (handler.Sys.init t) l).q
          (handler.Sys.run int63n (handler.Sys.init t) l).shared)
      rw [hshared]
      exact readFrom_step _ _ now _ hpc hrf'

theorem shared_forms (int63n : Int → Int) (t : task.Task)
    (sched : List (handler.Thread × Time)) :
    ((handler.Sys.run int63n (handler.Sys.init t) sched).w.pc = 0 ∧
      (handler.Sys.run int63n (handler.Sys.init t) sched).shared = t) ∨
    (((handler.Sys.run int63n (handler.Sys.init t) sched).w.pc = 1 ∨
        (handler.Sys.run int63n (handler.Sys.init t) sched).w.pc = 2) ∧
      ∃ n₁, (handler.Sys.run int63n (handler.Sys.init t) sched).shared =
        task.beginUpdate n₁ t) ∨
    ((handler.Sys.run int63n (handler.Sys.init t) sched).w.pc = 3 ∧
      ∃ n₁ n₂, (handler.Sys.run int63n (handler.Sys.init t) sched).shared =
        task.finishUpdate n₂ (task.beginUpdate n₁ t)) := by
  induction sched using List.reverseRecOn with
  | nil => exact Or.inl ⟨rfl, rfl⟩
  | append_singleton l e ih =>
    rw [run_snoc]
    obtain ⟨th, now⟩ := e
    cases th with
    | query => exact ih
    | worker =>
      generalize handler.Sys.run int63n (handler.Sys.init t) l = s at ih ⊢
      rcases ih with ⟨hw, hs⟩ | ⟨hw | hw, n₁, hs⟩ | ⟨hw, n₁, n₂, hs⟩
      · refine Or.inr (Or.inl ⟨Or.inl ?_, now, ?_⟩)
        · simp [handler.Sys.step, task.Worker.step, hw]
        · simp [handler.Sys.step, task.Worker.step, hw, hs]
      · refine Or.inr (Or.inl ⟨Or.inr ?_, n₁, ?_⟩)
        · simp [handler.Sys.step, task.Worker.step, hw]
        · simp [handler.Sys.step, task.Worker.step, hw, hs]
      · refine Or.inr (Or.inr ⟨?_, n₁, now, ?_⟩)
        · simp [handler.Sys.step, task.Worker.step, hw]
        · simp [handler.Sys.step, task.Worker.step, hw, hs]
      · refine Or.inr (Or.inr ⟨?_, n₁, n₂, ?_⟩)
        · simp [handler.Sys.step, task.Worker.step, hw]
        · simp [handler.Sys.step, task.Worker.step, hw, hs]

theorem taskAt_forms (int63n : Int → Int) (t : task.Task)
    (sched : List (handler.Thread × Time)) (i : Nat) :
    handler.taskAt int63n t sched i = t ∨
    (∃ n₁, handler.taskAt int63n t sched i = task.beginUpdate n₁ t) ∨
    ∃ n₁ n₂, handler.taskAt int63n t sched i = task.finishUpdate n₂ (task.beginUpdate n₁ t) := by
  unfold handler.taskAt
  rcases shared_forms int63n t (sched.take i) with ⟨_, hs⟩ | ⟨_, n₁, hs⟩ | ⟨_, n₁, n₂, hs⟩
  · exact Or.inl hs
  · exact Or.inr (Or.inl ⟨n₁, hs⟩)
  · exact Or.inr (Or.inr ⟨n₁, n₂, hs⟩)

/-- C10, as the code has it: in every interleaving of a `GetTaskStatus` request
with a `SimulateIOBoundWork` run on the same task, every task state is the
initial one, the one after the first update or the one after both (no update
is seen half done), each field of the completed response is the value of one
getter on one of these states, the states are read in the order id, status,
created_at, started_at, completed_at, duration, and the duration is computed
from a single state.  The fields need not come from the same state. -/
theorem C10_each_read_atomic_reads_in_order (int63n : Int → Int) (t : task.Task)
    (sched : List (handler.Thread × Time))
    (hdone : (handler.Sys.run int63n (handler.Sys.init t) sched).q.pc = 7) :
    (∃ i₀ i₁ i₂ i₃ i₄ i₅ : Nat,
      i₀ ≤ i₁ ∧ i₁ ≤ i₂ ∧ i₂ ≤ i₃ ∧ i₃ ≤ i₄ ∧ i₄ ≤ i₅ ∧ i₅ ≤ sched.length ∧
      (handler.Sys.run int63n (handler.Sys.init t) sched).q.resp.ID =
        (handler.taskAt int63n t sched i₀).ID ∧
      (handler.Sys.run int63n (handler.Sys.init t) sched).q.resp.Status =
        task.GetStatus (handler.taskAt int63n t sched i₁) ∧
      (handler.Sys.run int63n (handler.Sys.init t) sched).q.resp.CreatedAt =
        task.GetCreatedAt (handler.taskAt int63n t sched i₂) ∧
      (handler.Sys.run int63n (handler.Sys.init t) sched).q.resp.StartedAt =
        task.GetStartedAt (handler.taskAt int63n t sched i₃) ∧
      (handler.Sys.run int63n (handler.Sys.init t) sched).q.resp.CompletedAt =
        task.GetCompletedAt (handler.taskAt int63n t sched i₄) ∧
      ∃ now, (handler.Sys.run int63n (handler.Sys.init t) sched).q.resp.Duration =
        task.GetDuration now (handler.taskAt int63n t sched i₅)) ∧
    (∀ i, handler.taskAt int63n t sched i = t ∨
      (∃ n₁, handler.taskAt int63n t sched i = task.beginUpdate n₁ t) ∨
      ∃ n₁ n₂, handler.taskAt int63n t sched i =
        task.finishUpdate n₂ (task.beginUpdate n₁ t)) := by
  refine ⟨?_, taskAt_forms int63n t sched⟩
  obtain ⟨i₀, i₁, i₂, i₃, i₄, i₅, h₀₁, h₁₂, h₂₃, h₃₄, h₄₅, h₅, f₀, f₁, f₂, f₃, f₄, f₅⟩ :=
    (run_readFrom int63n t sched).2
  rw [hdone] at f₀ f₁ f₂ f₃ f₄ f₅
  exact ⟨i₀, i₁, i₂, i₃, i₄, i₅, h₀₁, h₁₂, h₂₃, h₃₄, h₄₅, h₅, f₀ (by decide), f₁ (by decide),
    f₂ (by decide), f₃ (by decide), f₄ (by decide), f₅ (by decide)⟩

theorem C10_reads_in_order_witness :
    (handler.Sys.run Sample.int63nMin (handler.Sys.init Sample.freshTask)
      Sample.tornPending).q.pc = 7 ∧
    ∃ i₁ i₃ : Nat, i₁ ≤ i₃ ∧
      (handler.Sys.run Sample.int63nMin (handler.Sys.init Sample.freshTask)
        Sample.tornPending).q.resp.Status =
        task.GetStatus
          (handler.taskAt Sample.int63nMin Sample.freshTask Sample.tornPending i₁) ∧
      (handler.Sys.run Sample.int63nMin (handler.Sys.init Sample.freshTask)
        Sample.tornPending).q.resp.StartedAt =
        task.GetStartedAt
          (handler.taskAt Sample.int63nMin Sample.freshTask Sample.tornPending i₃) :=
  have h := (C10_each_read_atomic_reads_in_order Sample.int63nMin Sample.freshTask
    Sample.tornPending (by decide)).1
  ⟨by decide,
    let ⟨_, i₁, _, i₃, _, _, _, h₁₂, h₂₃, _, _, _, _, f₁, _, f₃, _⟩ := h
    ⟨i₁, i₃, le_trans h₁₂ h₂₃, f₁, f₃⟩⟩

/-- C10 fails as stated: a request that reads the status before the first
update and the timestamps after it answers status pending with started_at
set; one that reads the status while the task runs and the timestamps after
the second update answers status running with completed_at set.  Neither
response is the snapshot of any state the task had. -/
theorem C10_torn_response :
    ((handler.Sys.run Sample.int63nMin (handler.Sys.init Sample.freshTask)
        Sample.tornPending).q.pc = 7 ∧
      (handler.Sys.run Sample.int63nMin (handler.Sys.init Sample.freshTask)
        Sample.tornPending).q.resp =
        { ID := "fresh", Status := task.StatusPending, CreatedAt := 10, StartedAt := 30,
          CompletedAt := 0, Duration := "0s" } ∧
      ¬ ∃ i now, (handler.Sys.run Sample.int63nMin (handler.Sys.init Sample.freshTask)
          Sample.tornPending).q.resp =
        handler.snapshot now
          (handler.taskAt Sample.int63nMin Sample.freshTask Sample.tornPending i)) ∧
    ((handler.Sys.run Sample.int63nMin (handler.Sys.init Sample.freshTask)
        Sample.tornRunning).q.pc = 7 ∧
      (handler.Sys.run Sample.int63nMin (handler.Sys.init Sample.freshTask)
        Sample.tornRunning).q.resp =
        { ID := "fresh", Status := task.StatusRunning, CreatedAt := 10, StartedAt := 30,
          CompletedAt := 60, Duration := "0s" } ∧
      ¬ ∃ i now, (handler.Sys.run Sample.int63nMin (handler.Sys.init Sample.freshTask)
          Sample.tornRunning).q.resp =
        handler.snapshot now
          (handler.taskAt Sample.int63nMin Sample.freshTask Sample.tornRunning i)) := by
  have hp : (handler.Sys.run Sample.int63nMin (handler.Sys.init Sample.freshTask)
      Sample.tornPending).q.resp =
      { ID := "fresh", Status := task.StatusPending, CreatedAt := 10, StartedAt := 30,
        CompletedAt := 0, Duration := "0s" } := by decide
  have hr : (handler.Sys.run Sample.int63nMin (handler.Sys.init Sample.freshTask)
      Sample.tornRunning).q.resp =
      { ID := "fresh", Status := task.StatusRunning, CreatedAt := 10, StartedAt := 30,
        CompletedAt := 60, Duration := "0s" } := by decide
  refine ⟨⟨by decide, hp, ?_⟩, ⟨by decide, hr, ?_⟩⟩
  · rintro ⟨i, now, h⟩
    rw [hp] at h
    have hst := congrArg dto.TaskResponse.Status h
    have hsa := congrArg dto.TaskResponse.StartedAt h
    simp only [handler.snapshot, task.GetStatus, task.GetStartedAt] at hst hsa
    rcases taskAt_forms Sample.int63nMin Sample.freshTask Sample.tornPending i with
      hf | ⟨n₁, hf⟩ | ⟨n₁, n₂, hf⟩
    · rw [hf] at hsa
      have hne : ¬ ((30 : Time) = 0) := by decide
      exact hne hsa
    · rw [hf] at hst
      have hne : ¬ (task.StatusPending = task.StatusRunning) := by decide
      exact hne hst
    · rw [hf] at hst
      have hne : ¬ (task.StatusPending = task.StatusCompleted) := by decide
      exact hne hst
  · rintro ⟨i, now, h⟩
    rw [hr] at h
    have hst := congrArg dto.TaskResponse.Status h
    have hca := congrArg dto.TaskResponse.CompletedAt h
    simp only [handler.snapshot, task.GetStatus, task.GetCompletedAt] at hst hca
    rcases taskAt_forms Sample.int63nMin Sample.freshTask Sample.tornRunning i with
      hf | ⟨n₁, hf⟩ | ⟨n₁, n₂, hf⟩
    · rw [hf] at hst
      have hne : ¬ (task.StatusRunning = task.StatusPending) := by decide
      exact hne hst
    · rw [hf] at hca
      have hne : ¬ ((60 : Time) = 0) := by decide
      exact hne hca
    · rw [hf] at hst
      have hne : ¬ (task.StatusRunning = task.StatusCompleted) := by decide
      exact hne hst

/-! ## Instances of the registry theorems -/

theorem C2_last_write_wins_witness :
    ((1 : repo.Ptr) ≠ repo.nil ∧ Sample.registry.tasks.lookup "a" = some 7) ∧
    ∃ r', repo.AddTask Sample.heap Sample.registry 1 = some r' ∧
      repo.GetTask r' "a" = (.ok 1, r') :=
  ⟨⟨by decide, by decide⟩, C2_AddTask_then_GetTask Sample.heap Sample.registry 1 (by decide)⟩

theorem C3_delete_then_get_witness :
    (Sample.registry.tasks.lookup "a").isSome = true ∧
    (repo.DeleteTask Sample.registry "a").1 = .ok () ∧
    repo.GetTask (repo.DeleteTask Sample.registry "a").2 "a" =
      (.error (repo.notFound "a"), (repo.DeleteTask Sample.registry "a").2) :=
  have h := C3_DeleteTask_then_GetTask Sample.registry "a" (by decide)
  ⟨by decide, h.1, h.2.1⟩

theorem C5_three_tasks_witness :
    ((∀ p ∈ [1, 2, 3], p ≠ repo.nil) ∧
      ([1, 2, 3].map (fun p => (Sample.heap p).ID)).Nodup ∧
      List.Perm [3, 1, 2] [1, 2, 3]) ∧
    ∃ r', repo.addAll Sample.heap repo.New [3, 1, 2] = some r' ∧
      (∀ p ∈ [1, 2, 3], repo.GetTask r' (Sample.heap p).ID = (.ok p, r')) ∧
      r'.len = repo.New.len + 3 :=
  ⟨⟨by decide, by decide, by decide⟩,
    let ⟨r', h₁, h₂, h₃⟩ := C5_addAll_no_lost_write Sample.heap repo.New [1, 2, 3] [3, 1, 2]
      (by decide) (by decide) (by decide)
    ⟨r', h₁, h₂, h₃ (by decide)⟩⟩
